import Mathlib

/-!
Shallow embedding of `kernel/bpf/offload.c`: the BPF device-offload
subsystem (registry of offload descriptors, lifecycle operations,
device-removal notifier, info reporter).

Pointers are modelled as natural-number identities; the two kernel maps
(`prog->aux->offload` and the live-device table) are modelled as functions
and association lists.  Operations that in C would dereference a NULL or
freed pointer return `none`; otherwise they return the computed value
together with the successor state and a trace of observable events
(driver dispatches, lock acquisitions, list unlink, kfree, ...).
-/

namespace BpfOffload

/-- Linux error numbers used by offload.c (returned negated, as in C). -/
def EPERM : Int := 1
def ENOENT : Int := 2
def ENOMEM : Int := 12
def ENODEV : Int := 19
def EINVAL : Int := 22
def EOPNOTSUPP : Int := 95

/-- `NETDEV_UNREGISTER` notifier event number from `netdevice.h`. -/
def NETDEV_UNREGISTER : Nat := 6

/-- `NOTIFY_OK` return value of a notifier callback. -/
def NOTIFY_OK : Nat := 1

/-- Net-device registration states (`netdev->reg_state`). -/
inductive RegState where
  | uninitialized
  | registered
  | unregistering
  | unregistered
  | released
  | dummy
deriving DecidableEq, Repr

/-- The three `bpf_netdev_command`s issued by this file. -/
inductive NdoCmd where
  | verifierPrep
  | translate
  | destroy
deriving DecidableEq, Repr

abbrev ProgId := Nat
abbrev DevPtr := Nat

/-- Observable events emitted by the embedded operations. -/
inductive Event where
  | rtnlLock
  | rtnlUnlock
  | devsLockWrite
  | devsUnlockWrite
  | devsLockRead
  | devsUnlockRead
  | alloc (prog : ProgId)
  | devLookup (ifindex : Nat)
  | regStateCheck (prog : ProgId)
  | ndo (cmd : NdoCmd) (prog : ProgId)
  | warn
  | freeId (prog : ProgId)
  | listDel (prog : ProgId)
  | clearNetdev (prog : ProgId)
  | kfree (prog : ProgId)
  | execProg (prog : ProgId)
deriving DecidableEq, Repr

/-- The driver hook table installed by `BPF_OFFLOAD_VERIFIER_PREP`
(`bpf_ext_analyzer_ops`): one callback per verified instruction. -/
structure HookTable where
  insn_hook : Int → Int → Int

/-- One net device: its identifying fields plus the driver command handler
`ndo_bpf`.  The handler returns the command's return code and, for
`VERIFIER_PREP`, the hook table it wrote into `data.verifier.ops`. -/
structure NetDevice where
  ifindex : Nat
  netNs : Nat
  regState : RegState
  hasNdoBpf : Bool
  ndoBpf : NdoCmd → ProgId → Int × Option HookTable

/-- The program's software entry point (`prog->bpf_func`). -/
inductive BpfFunc where
  | normal (body : Nat → Nat)
  | warnOnExec

/-- The slice of `struct bpf_prog` this subsystem touches: the
externally-visible program id (invalidated by `bpf_prog_free_id`) and the
software entry point. -/
structure BpfProg where
  idValid : Bool
  bpfFunc : BpfFunc

/-- `struct bpf_prog_offload`. -/
structure BpfProgOffload where
  prog : ProgId
  netdev : Option DevPtr
  devOps : Option HookTable
  devState : Bool

/-- The fields of `union bpf_attr` read by `bpf_prog_offload_init`. -/
structure BpfAttr where
  prog_flags : Nat
  prog_ifindex : Nat

/-- Global state: the live net devices, the per-program fields, the
`prog->aux->offload` pointers and the `bpf_prog_offload_devs` list. -/
structure State where
  devs : List (DevPtr × NetDevice)
  progs : ProgId → BpfProg
  offloads : ProgId → Option BpfProgOffload
  offloadDevs : List ProgId

/-- Point update of a function-modelled map. -/
def upd {α : Type} (f : Nat → α) (k : Nat) (v : α) : Nat → α :=
  fun q => if q = k then v else f q

/-- Resolve a device pointer to the device it denotes. -/
def lookupDev (devs : List (DevPtr × NetDevice)) (p : DevPtr) : Option NetDevice :=
  (devs.find? (fun e => e.1 = p)).map (fun e => e.2)

/-- `dev_get_by_index(net, ifindex)`: find a live device with the given
ifindex in the given namespace. -/
def dev_get_by_index (st : State) (ns ifi : Nat) : Option (DevPtr × NetDevice) :=
  st.devs.find? (fun e => e.2.netNs = ns && e.2.ifindex = ifi)

/-- `bpf_dev_offload_check`: `-EINVAL` if the device handle is NULL,
`-EOPNOTSUPP` if it has no `ndo_bpf` handler, else 0. -/
def bpf_dev_offload_check (netdev : Option NetDevice) : Int :=
  match netdev with
  | none => -EINVAL
  | some nd => if nd.hasNdoBpf then 0 else -EOPNOTSUPP

/-- `bpf_prog_offload_init`: capability check, flags check, allocate the
descriptor, look the device up, admission check, then under the registry
write lock check the device is fully registered and insert the descriptor.
`capAdmin` models `capable(CAP_SYS_ADMIN)`, `allocOk` the `kzalloc`
outcome, `curNs` the caller's `current->nsproxy->net_ns`. -/
def bpf_prog_offload_init (st : State) (capAdmin : Bool) (allocOk : Bool) (curNs : Nat)
    (prog : ProgId) (attr : BpfAttr) : Int × State × List Event :=
  if !capAdmin then (-EPERM, st, [])
  else if attr.prog_flags ≠ 0 then (-EINVAL, st, [])
  else if !allocOk then (-ENOMEM, st, [.alloc prog])
  else
    let tr0 : List Event := [.alloc prog, .devLookup attr.prog_ifindex]
    match dev_get_by_index st curNs attr.prog_ifindex with
    | none => (bpf_dev_offload_check none, st, tr0)
    | some (p, nd) =>
      if !nd.hasNdoBpf then (bpf_dev_offload_check (some nd), st, tr0)
      else
        let tr1 : List Event := tr0 ++ [.devsLockWrite, .regStateCheck prog]
        if nd.regState ≠ RegState.registered then
          (-EINVAL, st, tr1 ++ [.devsUnlockWrite])
        else
          let off : BpfProgOffload :=
            { prog := prog, netdev := some p, devOps := none, devState := false }
          let st1 : State :=
            { st with offloads := upd st.offloads prog (some off),
                      offloadDevs := st.offloadDevs ++ [prog] }
          (0, st1, tr1 ++ [.devsUnlockWrite])

/-- `__bpf_offload_ndo`: read `prog->aux->offload->netdev` (crash = `none`
if the descriptor does not exist or the device pointer dangles); if the
device reference is empty return `-ENODEV` without invoking the handler;
otherwise forward the tagged command to the device's `ndo_bpf`. -/
def __bpf_offload_ndo (st : State) (prog : ProgId) (cmd : NdoCmd) :
    Option (Int × Option HookTable) × List Event :=
  match st.offloads prog with
  | none => (none, [])
  | some off =>
    match off.netdev with
    | none => (some (-ENODEV, none), [])
    | some p =>
      match lookupDev st.devs p with
      | none => (none, [])
      | some nd => (some (nd.ndoBpf cmd prog), [.ndo cmd prog])

/-- `bpf_prog_offload_verifier_prep`: under the rtnl (topology) lock
dispatch `VERIFIER_PREP`; on success store the returned hook table in
`dev_ops` and set `dev_state = true`. -/
def bpf_prog_offload_verifier_prep (st : State) (prog : ProgId) :
    Option Int × State × List Event :=
  let r := __bpf_offload_ndo st prog .verifierPrep
  match r.1 with
  | none => (none, st, [.rtnlLock] ++ r.2)
  | some (err, opsOpt) =>
    if err ≠ 0 then (some err, st, [.rtnlLock] ++ r.2 ++ [.rtnlUnlock])
    else
      match st.offloads prog with
      | none => (none, st, [.rtnlLock] ++ r.2)
      | some off =>
        let off1 : BpfProgOffload := { off with devOps := opsOpt, devState := true }
        let st1 : State := { st with offloads := upd st.offloads prog (some off1) }
        (some 0, st1, [.rtnlLock] ++ r.2 ++ [.rtnlUnlock])

/-- `bpf_prog_offload_verify_insn`: under the registry read lock, if the
descriptor's device reference is non-empty invoke the stored
`insn_hook` (a NULL `dev_ops` is a crash, modelled `none`); otherwise the
initial `ret = -ENODEV` is returned. -/
def bpf_prog_offload_verify_insn (st : State) (prog : ProgId) (insn_idx prev_insn_idx : Int) :
    Option Int × List Event :=
  match st.offloads prog with
  | none => (none, [.devsLockRead])
  | some off =>
    match off.netdev with
    | none => (some (-ENODEV), [.devsLockRead, .devsUnlockRead])
    | some _ =>
      match off.devOps with
      | none => (none, [.devsLockRead])
      | some ops =>
        (some (ops.insn_hook insn_idx prev_insn_idx), [.devsLockRead, .devsUnlockRead])

/-- `__bpf_prog_offload_destroy`: if `dev_state` is set, dispatch `DESTROY`
under `WARN_ON`; invalidate the program's external id
(`bpf_prog_free_id`); clear `dev_state`, unlink from the registry list
(`list_del_init`), clear the device reference. -/
def __bpf_prog_offload_destroy (st : State) (prog : ProgId) :
    Option (State × List Event) :=
  match st.offloads prog with
  | none => none
  | some off =>
    let step1 : Option (List Event) :=
      if off.devState then
        match __bpf_offload_ndo st prog .destroy with
        | (none, _) => none
        | (some (code, _), tr) =>
          some (tr ++ (if code ≠ 0 then [.warn] else []))
      else some []
    match step1 with
    | none => none
    | some tr1 =>
      let prog1 : BpfProg := { st.progs prog with idValid := false }
      let off1 : BpfProgOffload := { off with devState := false, netdev := none }
      let st1 : State :=
        { st with progs := upd st.progs prog prog1,
                  offloads := upd st.offloads prog (some off1),
                  offloadDevs := st.offloadDevs.erase prog }
      some (st1, tr1 ++ [.freeId prog, .listDel prog, .clearNetdev prog])

/-- `bpf_prog_offload_destroy`: rtnl lock, registry write lock, the inner
teardown, unlock both, then `kfree` the descriptor. -/
def bpf_prog_offload_destroy (st : State) (prog : ProgId) :
    Option (State × List Event) :=
  match __bpf_prog_offload_destroy st prog with
  | none => none
  | some (st1, trIn) =>
    let st2 : State := { st1 with offloads := upd st1.offloads prog none }
    some (st2, [.rtnlLock, .devsLockWrite] ++ trIn ++
               [.devsUnlockWrite, .rtnlUnlock, .kfree prog])

/-- `bpf_prog_offload_translate`: under the rtnl lock dispatch
`TRANSLATE`; state is unchanged. -/
def bpf_prog_offload_translate (st : State) (prog : ProgId) :
    Option Int × State × List Event :=
  let r := __bpf_offload_ndo st prog .translate
  match r.1 with
  | none => (none, st, [.rtnlLock] ++ r.2)
  | some (code, _) => (some code, st, [.rtnlLock] ++ r.2 ++ [.rtnlUnlock])

/-- `bpf_prog_warn_on_exec`: the guard installed as the program's software
entry point; it warns unconditionally and returns 0. -/
def bpf_prog_warn_on_exec (_ctx _insn : Nat) : Nat × List Event :=
  (0, [.warn])

/-- Invoke a program's software entry point (`prog->bpf_func(...)`). -/
def callBpfFunc (f : BpfFunc) (prog : ProgId) (ctx insn : Nat) : Nat × List Event :=
  match f with
  | .normal body => (body ctx, [.execProg prog])
  | .warnOnExec => bpf_prog_warn_on_exec ctx insn

/-- `bpf_prog_offload_compile`: point `bpf_func` at the guard, then
translate. -/
def bpf_prog_offload_compile (st : State) (prog : ProgId) :
    Option Int × State × List Event :=
  let st1 : State :=
    { st with progs := upd st.progs prog { st.progs prog with bpfFunc := .warnOnExec } }
  bpf_prog_offload_translate st1 prog

/-- The fields of `struct bpf_prog_info` written by the reporter. -/
structure BpfProgInfo where
  ifindex : Nat
  netns_dev : Nat
  netns_ino : Nat
deriving DecidableEq, Repr

/-- `bpf_prog_offload_info_fill_ns`: under rtnl + registry read lock, if
the program has an offload descriptor report its device's ifindex and
return the device's network namespace — dereferencing `offload->netdev`
without a NULL check (crash = `none` when the device reference was
cleared); otherwise zero the ifindex and return no namespace. -/
def bpf_prog_offload_info_fill_ns (st : State) (prog : ProgId) (info : BpfProgInfo) :
    Option (Option Nat × BpfProgInfo × List Event) :=
  match st.offloads prog with
  | none =>
    some (none, { info with ifindex := 0 },
          [.rtnlLock, .devsLockRead, .devsUnlockRead, .rtnlUnlock])
  | some off =>
    match off.netdev with
    | none => none
    | some p =>
      match lookupDev st.devs p with
      | none => none
      | some nd =>
        some (some nd.netNs, { info with ifindex := nd.ifindex },
              [.rtnlLock, .devsLockRead, .devsUnlockRead, .rtnlUnlock])

/-- Models the external nsfs helper `ns_get_path_cb`: a NULL namespace
from the callback yields `ERR_PTR(-ENOENT)`; otherwise path resolution
(out of scope here) either returns the namespace's `(s_dev, i_ino)` pair
or an error, supplied as the `resolver` environment. -/
def ns_get_path_cb (resolver : Nat → Except Int (Nat × Nat)) (nsOpt : Option Nat) :
    Except Int (Nat × Nat) :=
  match nsOpt with
  | none => Except.error (-ENOENT)
  | some ns => resolver ns

/-- `bpf_prog_offload_info_fill`: run the namespace callback through
`ns_get_path_cb`; on error return `-ENODEV` when the reported ifindex is
zero and the resolution error otherwise; on success fill in the namespace
device and inode numbers. -/
def bpf_prog_offload_info_fill (resolver : Nat → Except Int (Nat × Nat))
    (st : State) (prog : ProgId) (info : BpfProgInfo) :
    Option (Int × BpfProgInfo) :=
  match bpf_prog_offload_info_fill_ns st prog info with
  | none => none
  | some (nsOpt, info1, _) =>
    match ns_get_path_cb resolver nsOpt with
    | Except.error e =>
      if info1.ifindex = 0 then some (-ENODEV, info1) else some (e, info1)
    | Except.ok (d, ino) => some (0, { info1 with netns_dev := d, netns_ino := ino })

/-- The `list_for_each_entry_safe` sweep of `bpf_offload_notification`:
walk the snapshot of the registry list and run the inner teardown on every
descriptor bound to the unregistering device. -/
def sweepList (devp : DevPtr) : List ProgId → State → Option (State × List Event)
  | [], st => some (st, [])
  | p :: rest, st =>
    match st.offloads p with
    | none => none
    | some off =>
      if off.netdev = some devp then
        match __bpf_prog_offload_destroy st p with
        | none => none
        | some (st1, tr1) =>
          match sweepList devp rest st1 with
          | none => none
          | some (st2, tr2) => some (st2, tr1 ++ tr2)
      else sweepList devp rest st

/-- `bpf_offload_notification`: on `NETDEV_UNREGISTER` with the device in
`NETREG_UNREGISTERING` state, sweep the registry under the write lock;
every other event (or registration state, e.g. a namespace move) is
ignored.  Runs with rtnl already held (`ASSERT_RTNL`). -/
def bpf_offload_notification (st : State) (event : Nat) (devp : DevPtr) :
    Option (Nat × State × List Event) :=
  match lookupDev st.devs devp with
  | none => none
  | some nd =>
    if event = NETDEV_UNREGISTER then
      if nd.regState ≠ RegState.unregistering then some (NOTIFY_OK, st, [])
      else
        match sweepList devp st.offloadDevs st with
        | none => none
        | some (st1, tr) =>
          some (NOTIFY_OK, st1, [.devsLockWrite] ++ tr ++ [.devsUnlockWrite])
    else some (NOTIFY_OK, st, [])

/-! ## Derived notions: registry invariant, lock discipline, trace positions -/

/-- Program `p`'s descriptor is bound to device `devp`. -/
def boundTo (st : State) (devp : DevPtr) (p : ProgId) : Prop :=
  ∃ off, st.offloads p = some off ∧ off.netdev = some devp

/-- Program `p`'s descriptor is bound to `devp` and `dev_state` is set. -/
def activeBoundTo (st : State) (devp : DevPtr) (p : ProgId) : Prop :=
  ∃ off, st.offloads p = some off ∧ off.netdev = some devp ∧ off.devState = true

/-- The spec's registry invariant: a descriptor is a member of the
live-descriptor list iff its `device` reference is non-empty. -/
def registryIff (st : State) : Prop :=
  ∀ p off, st.offloads p = some off → (p ∈ st.offloadDevs ↔ off.netdev ≠ none)

/-- Well-formedness of a subsystem state: the registry list has no
duplicates, list members have descriptors with a non-empty device
reference, descriptors with a non-empty device reference are listed, and
every bound device reference resolves to a live device. -/
structure Inv (st : State) : Prop where
  nodup : st.offloadDevs.Nodup
  mem_netdev : ∀ p, p ∈ st.offloadDevs →
    ∃ off, st.offloads p = some off ∧ off.netdev ≠ none
  netdev_mem : ∀ p off, st.offloads p = some off → off.netdev ≠ none →
    p ∈ st.offloadDevs
  dev_live : ∀ p off d, st.offloads p = some off → off.netdev = some d →
    (lookupDev st.devs d).isSome

theorem Inv.registry_iff {st : State} (h : Inv st) : registryIff st := by
  intro p off hoff
  constructor
  · intro hmem
    obtain ⟨off1, hoff1, hne⟩ := h.mem_netdev p hmem
    rw [hoff] at hoff1
    cases hoff1
    exact hne
  · intro hne
    exact h.netdev_mem p off hoff hne

/-- Index of the first occurrence of an event in a trace (length of the
trace if absent). -/
def firstIdx (e : Event) : List Event → Nat
  | [] => 0
  | x :: xs => if x = e then 0 else firstIdx e xs + 1

/-- Lock-order discipline over a trace: the registry (`bpf_devs_lock`)
hold-depth is tracked and the rtnl (topology) lock is never acquired
while the registry lock is held. -/
def lockOrderOk : List Event → Nat → Bool
  | [], _ => true
  | Event.devsLockWrite :: tr, d => lockOrderOk tr (d + 1)
  | Event.devsLockRead :: tr, d => lockOrderOk tr (d + 1)
  | Event.devsUnlockWrite :: tr, d => lockOrderOk tr (d - 1)
  | Event.devsUnlockRead :: tr, d => lockOrderOk tr (d - 1)
  | Event.rtnlLock :: tr, d => d == 0 && lockOrderOk tr d
  | _ :: tr, d => lockOrderOk tr d

/-- Whether the rtnl (topology) lock is held at the first
`regStateCheck` of a trace (`none` if the trace has no check). -/
def rtnlHeldAtFirstCheck : List Event → Nat → Option Bool
  | [], _ => none
  | Event.rtnlLock :: tr, r => rtnlHeldAtFirstCheck tr (r + 1)
  | Event.rtnlUnlock :: tr, r => rtnlHeldAtFirstCheck tr (r - 1)
  | Event.regStateCheck _ :: _, r => some (r != 0)
  | _ :: tr, r => rtnlHeldAtFirstCheck tr r

/-- Whether the registry write lock is held at the first
`regStateCheck` of a trace (`none` if the trace has no check). -/
def devsWriteHeldAtFirstCheck : List Event → Nat → Option Bool
  | [], _ => none
  | Event.devsLockWrite :: tr, d => devsWriteHeldAtFirstCheck tr (d + 1)
  | Event.devsUnlockWrite :: tr, d => devsWriteHeldAtFirstCheck tr (d - 1)
  | Event.regStateCheck _ :: _, d => some (d != 0)
  | _ :: tr, d => devsWriteHeldAtFirstCheck tr d

/-! ## Concrete states used by witnesses and counterexamples -/

/-- A driver hook table whose verdict is a function of the indices. -/
def exHook : HookTable := ⟨fun i p => i + p + 7⟩

/-- A registered offload-capable device at ifindex 9 in namespace 0. -/
def exDev : NetDevice :=
  { ifindex := 9, netNs := 0, regState := .registered, hasNdoBpf := true,
    ndoBpf := fun _ _ => (0, some exHook) }

/-- The same device mid-unregistration. -/
def exDevU : NetDevice :=
  { ifindex := 9, netNs := 0, regState := .unregistering, hasNdoBpf := true,
    ndoBpf := fun _ _ => (0, some exHook) }

/-- A program with a valid id and a normal software entry point. -/
def exProg : BpfProg := { idValid := true, bpfFunc := .normal (fun c => c + 1) }

/-- Initial state: one registered device (pointer 5), no descriptors. -/
def exSt0 : State :=
  { devs := [(5, exDev)], progs := fun _ => exProg,
    offloads := fun _ => none, offloadDevs := [] }

/-- State with program 1 bound to device 5 but not yet prepped. -/
def exStB : State :=
  { devs := [(5, exDev)], progs := fun _ => exProg,
    offloads := fun q => if q = 1 then some ⟨1, some 5, none, false⟩ else none,
    offloadDevs := [1] }

/-- State with program 1 bound to device 5 and prepped. -/
def exStP : State :=
  { devs := [(5, exDev)], progs := fun _ => exProg,
    offloads := fun q => if q = 1 then some ⟨1, some 5, some exHook, true⟩ else none,
    offloadDevs := [1] }

/-- Bound-but-unprepped descriptor whose device is unregistering. -/
def exStU : State :=
  { devs := [(5, exDevU)], progs := fun _ => exProg,
    offloads := fun q => if q = 1 then some ⟨1, some 5, none, false⟩ else none,
    offloadDevs := [1] }

/-- Prepped descriptor whose device is unregistering. -/
def exStUP : State :=
  { devs := [(5, exDevU)], progs := fun _ => exProg,
    offloads := fun q => if q = 1 then some ⟨1, some 5, some exHook, true⟩ else none,
    offloadDevs := [1] }

/-- Descriptor whose device reference was already cleared by a
device-removal sweep (the program's owner has not freed it yet). -/
def exStC5 : State :=
  { devs := [(5, exDev)], progs := fun _ => exProg,
    offloads := fun q => if q = 1 then some ⟨1, none, none, false⟩ else none,
    offloadDevs := [] }

/-- A namespace-path resolver that always succeeds with `(3, 4)`. -/
def exResolver : Nat → Except Int (Nat × Nat) := fun _ => .ok (3, 4)

/-! ## Supporting lemmas -/

theorem translate_state (st : State) (prog : ProgId) :
    (bpf_prog_offload_translate st prog).2.1 = st := by
  simp only [bpf_prog_offload_translate]
  rcases h : (__bpf_offload_ndo st prog NdoCmd.translate).1 with _ | ⟨code, ops⟩ <;> rfl

/-! ## C7: early errors of init -/

/-- C7: `init` without CAP_SYS_ADMIN returns `-EPERM`, and `init` with
nonzero flags returns `-EINVAL`; in both cases the state is returned
unchanged and the event trace is empty — in particular no device lookup
and no allocation has happened. -/
theorem init_early_errors (st : State) (allocOk : Bool) (curNs : Nat)
    (prog : ProgId) (attr : BpfAttr) :
    bpf_prog_offload_init st false allocOk curNs prog attr = (-EPERM, st, []) ∧
    (attr.prog_flags ≠ 0 →
      bpf_prog_offload_init st true allocOk curNs prog attr = (-EINVAL, st, [])) := by
  refine ⟨rfl, fun h => ?_⟩
  simp [bpf_prog_offload_init, h]

theorem init_early_errors_witness :
    (1 : Nat) ≠ 0 ∧
    bpf_prog_offload_init exSt0 true true 0 1 ⟨1, 9⟩ = (-EINVAL, exSt0, []) :=
  ⟨by decide, (init_early_errors exSt0 true 0 1 ⟨1, 9⟩).2 (by decide)⟩

/-! ## C8: compile rewires the entry point to the warn-on-exec guard -/

/-- C8: `compile` rewires the program's software entry point to
`bpf_prog_warn_on_exec`; invoking that guard warns unconditionally,
returns 0, and performs no program execution (no `execProg` event). -/
theorem compile_installs_exec_guard (st : State) (prog : ProgId) (ctx insn : Nat) :
    ((bpf_prog_offload_compile st prog).2.1.progs prog).bpfFunc = BpfFunc.warnOnExec ∧
    bpf_prog_warn_on_exec ctx insn = (0, [Event.warn]) ∧
    callBpfFunc ((bpf_prog_offload_compile st prog).2.1.progs prog).bpfFunc prog ctx insn
      = (0, [Event.warn]) ∧
    (∀ q, Event.execProg q ∉
      (callBpfFunc ((bpf_prog_offload_compile st prog).2.1.progs prog).bpfFunc
        prog ctx insn).2) := by
  have hbf : ((bpf_prog_offload_compile st prog).2.1.progs prog).bpfFunc
      = BpfFunc.warnOnExec := by
    simp only [bpf_prog_offload_compile]
    rw [translate_state]
    simp [upd]
  refine ⟨hbf, rfl, ?_, ?_⟩
  · rw [hbf]; rfl
  · intro q; rw [hbf]; simp [callBpfFunc, bpf_prog_warn_on_exec]

/-! ## C1: verify_insn verdicts -/

/-- C1 (amended): after `verifier_prep` succeeds, `verify_insn` returns
exactly the driver's `insn_hook` verdict for every instruction index;
`verify_insn` returns `-ENODEV` precisely when the descriptor's device
reference is empty — on a descriptor whose device reference is set but
whose hook table is not yet installed (the state right after `init`,
before prep) it instead dereferences the absent hook table (a crash,
modelled `none`), not `-ENODEV`. -/
theorem verify_insn_verdicts (st : State) (prog : ProgId) (off : BpfProgOffload)
    (d : DevPtr) (nd : NetDevice) (ops : HookTable)
    (hoff : st.offloads prog = some off) (hnd : off.netdev = some d)
    (hdev : lookupDev st.devs d = some nd)
    (hprep : nd.ndoBpf NdoCmd.verifierPrep prog = (0, some ops)) :
    (bpf_prog_offload_verifier_prep st prog).1 = some 0 ∧
    (∀ i p,
      (bpf_prog_offload_verify_insn
        (bpf_prog_offload_verifier_prep st prog).2.1 prog i p).1
      = some (ops.insn_hook i p)) ∧
    (∀ st2 off2 i p, st2.offloads prog = some off2 → off2.netdev = none →
      (bpf_prog_offload_verify_insn st2 prog i p).1 = some (-ENODEV)) ∧
    (∀ i p, off.devOps = none →
      (bpf_prog_offload_verify_insn st prog i p).1 = none) := by
  have hndo : __bpf_offload_ndo st prog NdoCmd.verifierPrep
      = (some (0, some ops), [Event.ndo NdoCmd.verifierPrep prog]) := by
    simp [__bpf_offload_ndo, hoff, hnd, hdev, hprep]
  refine ⟨?_, ?_, ?_, ?_⟩
  · simp [bpf_prog_offload_verifier_prep, hndo, hoff]
  · intro i p
    simp [bpf_prog_offload_verifier_prep, hndo, hoff,
          bpf_prog_offload_verify_insn, upd, hnd]
  · intro st2 off2 i p hoff2 hnd2
    simp [bpf_prog_offload_verify_insn, hoff2, hnd2]
  · intro i p hops
    simp [bpf_prog_offload_verify_insn, hoff, hnd, hops]

theorem verify_insn_verdicts_witness :
    exStB.offloads 1 = some ⟨1, some 5, none, false⟩ ∧
    (bpf_prog_offload_verifier_prep exStB 1).1 = some 0 ∧
    (bpf_prog_offload_verify_insn
      (bpf_prog_offload_verifier_prep exStB 1).2.1 1 3 2).1 = some 12 ∧
    (bpf_prog_offload_verify_insn exStB 1 3 2).1 = none := by
  have h := verify_insn_verdicts exStB 1 ⟨1, some 5, none, false⟩ 5 exDev exHook
    rfl rfl rfl rfl
  exact ⟨rfl, h.1, h.2.1 3 2, h.2.2.2 3 2 rfl⟩

/-- C1 counterexample: for the descriptor freshly created by a successful
`init` (prep not yet run), `verify_insn` does not return `-ENODEV` — it
reaches the uninstalled hook table instead. -/
theorem verify_insn_before_prep_counterexample :
    (bpf_prog_offload_init exSt0 true true 0 1 ⟨0, 9⟩).1 = 0 ∧
    (bpf_prog_offload_verify_insn
      (bpf_prog_offload_init exSt0 true true 0 1 ⟨0, 9⟩).2.1 1 0 0).1
      ≠ some (-ENODEV) := by
  refine ⟨rfl, ?_⟩
  intro h
  have h0 : (bpf_prog_offload_verify_insn
      (bpf_prog_offload_init exSt0 true true 0 1 ⟨0, 9⟩).2.1 1 0 0).1 = none := rfl
  rw [h0] at h
  exact Option.noConfusion h

/-! ## C5: operations after the device vanished -/

/-- C5: after a device-removal sweep cleared the descriptor's device
reference, `verify_insn` does observe `-ENODEV`, but the Info Reporter
(`bpf_prog_offload_info_fill_ns`) dereferences the cleared `netdev`
pointer without a NULL check and crashes (modelled `none`) instead of
reporting the unbound state — contradicting the spec's guarantee that
every subsequent operation merely observes `NoDevice`. -/
theorem info_fill_ns_stale_device_crash :
    (bpf_prog_offload_verify_insn exStC5 1 0 0).1 = some (-ENODEV) ∧
    exStC5.offloads 1 = some ⟨1, none, none, false⟩ ∧
    bpf_prog_offload_info_fill_ns exStC5 1 ⟨0, 0, 0⟩ = none := by
  exact ⟨rfl, rfl, rfl⟩

/-! ## C6: the Info Reporter on an unbound program -/

/-- C6 (amended): `report` on an unbound program zeroes the reported
device index and returns `-ENODEV` (the "not offloaded" signal, not the
namespace-resolution error); a namespace-path resolution failure is
surfaced as that failure's own error code only when the program is bound
to a device (nonzero reported ifindex). -/
theorem info_fill_unbound_and_bound (resolver : Nat → Except Int (Nat × Nat))
    (st : State) (prog : ProgId) (info : BpfProgInfo) :
    (st.offloads prog = none →
      bpf_prog_offload_info_fill resolver st prog info
        = some (-ENODEV, { info with ifindex := 0 })) ∧
    (∀ off d nd e, st.offloads prog = some off → off.netdev = some d →
      lookupDev st.devs d = some nd → nd.ifindex ≠ 0 →
      resolver nd.netNs = Except.error e →
      bpf_prog_offload_info_fill resolver st prog info
        = some (e, { info with ifindex := nd.ifindex })) := by
  constructor
  · intro h
    simp [bpf_prog_offload_info_fill, bpf_prog_offload_info_fill_ns, h,
          ns_get_path_cb]
  · intro off d nd e hoff hnd hdev hifi hres
    simp [bpf_prog_offload_info_fill, bpf_prog_offload_info_fill_ns, hoff,
          hnd, hdev, ns_get_path_cb, hres, hifi]

theorem info_fill_unbound_and_bound_witness :
    exSt0.offloads 1 = none ∧
    bpf_prog_offload_info_fill exResolver exSt0 1 ⟨7, 0, 0⟩
      = some (-ENODEV, ⟨0, 0, 0⟩) :=
  ⟨rfl, (info_fill_unbound_and_bound exResolver exSt0 1 ⟨7, 0, 0⟩).1 rfl⟩

/-- C6 counterexample: on an unbound program the reporter returns the
error `-ENODEV`, not a success return as the claim states. -/
theorem info_fill_unbound_counterexample :
    (bpf_prog_offload_info_fill exResolver exSt0 1 ⟨0, 0, 0⟩).map Prod.fst
      = some (-ENODEV) ∧
    ¬ (bpf_prog_offload_info_fill exResolver exSt0 1 ⟨0, 0, 0⟩).map Prod.fst
      = some 0 := by
  refine ⟨rfl, ?_⟩
  intro h
  have h0 : (bpf_prog_offload_info_fill exResolver exSt0 1 ⟨0, 0, 0⟩).map Prod.fst
      = some (-ENODEV) := rfl
  rw [h0] at h
  exact absurd (Option.some.inj h) (by decide)

/-! ## C9: teardown ordering inside destroy -/

/-- The dispatcher's trace is empty or the single dispatch event. -/
theorem ndo_trace_shape (st : State) (prog : ProgId) (cmd : NdoCmd) :
    (__bpf_offload_ndo st prog cmd).2 = [] ∨
    (__bpf_offload_ndo st prog cmd).2 = [Event.ndo cmd prog] := by
  simp only [__bpf_offload_ndo]
  cases h1 : st.offloads prog with
  | none => left; rfl
  | some o =>
    cases h2 : o.netdev with
    | none => left; simp [h2]
    | some p =>
      cases h3 : lookupDev st.devs p with
      | none => left; simp [h2, h3]
      | some nd => right; simp [h2, h3]

/-- The trace of the inner teardown always ends with the id invalidation,
the registry unlink and the device-reference clear, preceded by one of
the four possible dispatch prefixes. -/
theorem destroy_inner_shape (st : State) (prog : ProgId) (st1 : State) (trIn : List Event)
    (h : __bpf_prog_offload_destroy st prog = some (st1, trIn)) :
    ∃ tr1, trIn = tr1 ++ [Event.freeId prog, Event.listDel prog, Event.clearNetdev prog] ∧
      (tr1 = [] ∨ tr1 = [Event.warn] ∨ tr1 = [Event.ndo NdoCmd.destroy prog] ∨
        tr1 = [Event.ndo NdoCmd.destroy prog, Event.warn]) := by
  simp only [__bpf_prog_offload_destroy] at h
  split at h
  · cases h
  · rename_i off hoff
    split at h
    · cases h
    · rename_i tr1 heq
      simp only [Option.some.injEq, Prod.mk.injEq] at h
      refine ⟨tr1, h.2.symm, ?_⟩
      split at heq
      · split at heq
        · cases heq
        · rename_i code ops rtr hndo
          have hrtr : rtr = [] ∨ rtr = [Event.ndo NdoCmd.destroy prog] := by
            have := ndo_trace_shape st prog NdoCmd.destroy
            rwa [hndo] at this
          simp only [Option.some.injEq] at heq
          subst heq
          rcases hrtr with h1 | h1 <;> subst h1 <;> split <;> simp
      · simp only [Option.some.injEq] at heq
        subst heq
        simp

/-- The successor state produced by the inner teardown: id invalidated,
`dev_state` cleared, unlinked from the registry list, device reference
cleared. -/
def destroyedState (st : State) (prog : ProgId) (off : BpfProgOffload) : State :=
  { st with
      progs := upd st.progs prog { st.progs prog with idValid := false },
      offloads := upd st.offloads prog (some { off with devState := false, netdev := none }),
      offloadDevs := st.offloadDevs.erase prog }

/-- Full characterization of a successful inner-teardown run on a
descriptor whose bound device (if any) is live. -/
theorem destroy_inner_run (st : State) (prog : ProgId) (off : BpfProgOffload)
    (hoff : st.offloads prog = some off)
    (hlive : ∀ d, off.netdev = some d → (lookupDev st.devs d).isSome) :
    ∃ tr1, __bpf_prog_offload_destroy st prog
        = some (destroyedState st prog off,
                tr1 ++ [Event.freeId prog, Event.listDel prog, Event.clearNetdev prog]) ∧
      (∀ q, tr1.count (Event.ndo NdoCmd.destroy q)
          = if q = prog ∧ off.devState = true ∧ off.netdev.isSome = true then 1 else 0) ∧
      (∀ c q, Event.ndo c q ∈ tr1 → c = NdoCmd.destroy ∧ q = prog) ∧
      Event.rtnlLock ∉ tr1 ∧
      (off.devState = false → tr1 = []) := by
  cases hnd : off.netdev with
  | none =>
    by_cases hds : off.devState = true
    · have hndo : __bpf_offload_ndo st prog NdoCmd.destroy
          = (some (-ENODEV, none), []) := by
        simp [__bpf_offload_ndo, hoff, hnd]
      refine ⟨[Event.warn], ?_, ?_, ?_, ?_, ?_⟩
      · simp [__bpf_prog_offload_destroy, hoff, hds, hndo, destroyedState, ENODEV]
      · intro q; simp [hnd, hds, List.count_cons]
      · intro c q hc; simp at hc
      · simp
      · intro hf; rw [hds] at hf; cases hf
    · refine ⟨[], ?_, ?_, ?_, ?_, fun _ => rfl⟩
      · simp [__bpf_prog_offload_destroy, hoff, hds, destroyedState]
      · intro q
        simp [hds]
      · intro c q hc; simp at hc
      · simp
  | some p =>
    have hl := hlive p hnd
    obtain ⟨nd, hld⟩ := Option.isSome_iff_exists.mp hl
    obtain ⟨code, ops, hnb⟩ : ∃ code ops, nd.ndoBpf NdoCmd.destroy prog = (code, ops) :=
      ⟨_, _, rfl⟩
    by_cases hds : off.devState = true
    · have hndo : __bpf_offload_ndo st prog NdoCmd.destroy
          = (some (code, ops), [Event.ndo NdoCmd.destroy prog]) := by
        simp [__bpf_offload_ndo, hoff, hnd, hld, hnb]
      refine ⟨[Event.ndo NdoCmd.destroy prog]
          ++ (if code ≠ 0 then [Event.warn] else []), ?_, ?_, ?_, ?_, ?_⟩
      · simp [__bpf_prog_offload_destroy, hoff, hds, hndo, destroyedState]
      · intro q
        by_cases hq : q = prog
        · have hcond : q = prog ∧ off.devState = true ∧ (some p).isSome = true :=
            ⟨hq, hds, rfl⟩
          rw [if_pos hcond, hq]
          by_cases hcz : code ≠ 0
          · rw [if_pos hcz]; simp [List.count_append, List.count_cons]
          · rw [if_neg hcz]; simp [List.count_append, List.count_cons]
        · have hcond : ¬ (q = prog ∧ off.devState = true ∧ (some p).isSome = true) :=
            fun hc => hq hc.1
          rw [if_neg hcond]
          by_cases hcz : code ≠ 0
          · rw [if_pos hcz]
            simp [List.count_append, List.count_cons]
            intro hqq
            exact hq hqq.symm
          · rw [if_neg hcz]
            simp [List.count_append, List.count_cons]
            intro hqq
            exact hq hqq.symm
      · intro c q hc
        rw [List.mem_append] at hc
        rcases hc with hc | hc
        · simp at hc
          exact ⟨hc.1, hc.2⟩
        · exfalso
          revert hc
          by_cases hcz : code ≠ 0
          · rw [if_pos hcz]; simp
          · rw [if_neg hcz]; simp
      · rw [List.mem_append]
        intro hc
        rcases hc with hc | hc
        · simp at hc
        · revert hc
          by_cases hcz : code ≠ 0
          · rw [if_pos hcz]; simp
          · rw [if_neg hcz]; simp
      · intro hf; rw [hds] at hf; cases hf
    · refine ⟨[], ?_, ?_, ?_, ?_, fun _ => rfl⟩
      · simp [__bpf_prog_offload_destroy, hoff, hds, destroyedState]
      · intro q
        simp [hds]
      · intro c q hc; simp at hc
      · simp

/-! ## C3: destroy past the point where the device field is empty -/

/-- C3: once a teardown (explicit destroy or a device-removal sweep) has
run on a descriptor, running the teardown again is a no-op: the second
inner teardown performs no driver dispatch and leaves the registry list,
the descriptor map and the device table unchanged, and a full `destroy`
after a sweep likewise performs no driver dispatch and leaves the
registry list unchanged. -/
theorem destroy_idempotent_past_unbind (st : State) (prog : ProgId)
    (st1 : State) (tr1 : List Event)
    (hcnt : st.offloadDevs.count prog ≤ 1)
    (h1 : __bpf_prog_offload_destroy st prog = some (st1, tr1)) :
    (∃ st2 tr2, __bpf_prog_offload_destroy st1 prog = some (st2, tr2) ∧
      (∀ c q, Event.ndo c q ∉ tr2) ∧
      st2.offloadDevs = st1.offloadDevs ∧ st2.offloads = st1.offloads ∧
      st2.devs = st1.devs) ∧
    (∃ st3 tr3, bpf_prog_offload_destroy st1 prog = some (st3, tr3) ∧
      (∀ c q, Event.ndo c q ∉ tr3) ∧
      st3.offloadDevs = st1.offloadDevs ∧ st3.devs = st1.devs) := by
  simp only [__bpf_prog_offload_destroy] at h1
  split at h1
  · cases h1
  · rename_i off hoff
    split at h1
    · cases h1
    · rename_i tr0 heq
      simp only [Option.some.injEq, Prod.mk.injEq] at h1
      obtain ⟨hst1, -⟩ := h1
      have hoffproj : st1.offloads
          = upd st.offloads prog (some { off with devState := false, netdev := none }) := by
        rw [← hst1]
      have hlistproj : st1.offloadDevs = st.offloadDevs.erase prog := by
        rw [← hst1]
      have hoff1 : st1.offloads prog
          = some { off with devState := false, netdev := none } := by
        rw [hoffproj]; simp [upd]
      obtain ⟨tr2, hrun, hcount, hmem, hrtnl, hempty⟩ :=
        destroy_inner_run st1 prog { off with devState := false, netdev := none }
          hoff1 (fun d hd => absurd hd (by simp))
      have htr2 : tr2 = [] := hempty rfl
      subst htr2
      have hnotmem : prog ∉ st1.offloadDevs := by
        have hz : st1.offloadDevs.count prog = 0 := by
          rw [hlistproj, List.count_erase_self]
          omega
        exact List.count_eq_zero.mp hz
      have herase : st1.offloadDevs.erase prog = st1.offloadDevs :=
        List.erase_of_not_mem hnotmem
      have hoffeq : upd st1.offloads prog
          (some { off with devState := false, netdev := none }) = st1.offloads := by
        funext q
        by_cases hq : q = prog
        · subst hq; rw [hoff1]; simp [upd]
        · simp [upd, hq]
      have hds2 : (destroyedState st1 prog
          { off with devState := false, netdev := none }).offloadDevs
            = st1.offloadDevs := by
        simp [destroyedState, herase]
      have hos2 : (destroyedState st1 prog
          { off with devState := false, netdev := none }).offloads
            = st1.offloads := by
        simp [destroyedState]
        exact hoffeq
      constructor
      · refine ⟨_, _, hrun, ?_, hds2, hos2, rfl⟩
        intro c q hc
        simp at hc
      · rcases hfd : bpf_prog_offload_destroy st1 prog with _ | ⟨st3, tr3⟩
        · simp only [bpf_prog_offload_destroy, hrun] at hfd
          exact Option.noConfusion hfd
        · refine ⟨st3, tr3, rfl, ?_, ?_, ?_⟩
          · simp only [bpf_prog_offload_destroy, hrun, Option.some.injEq,
              Prod.mk.injEq] at hfd
            obtain ⟨-, hT⟩ := hfd
            rw [← hT]
            intro c q hc
            simp at hc
          · simp only [bpf_prog_offload_destroy, hrun, Option.some.injEq,
              Prod.mk.injEq] at hfd
            obtain ⟨hS, -⟩ := hfd
            rw [← hS]
            exact hds2
          · simp only [bpf_prog_offload_destroy, hrun, Option.some.injEq,
              Prod.mk.injEq] at hfd
            obtain ⟨hS, -⟩ := hfd
            rw [← hS]
            rfl

theorem destroy_idempotent_past_unbind_witness :
    exStP.offloadDevs.count 1 ≤ 1 ∧
    (∃ st2 tr2, __bpf_prog_offload_destroy
        ((__bpf_prog_offload_destroy exStP 1).getD (exStP, [])).1 1 = some (st2, tr2) ∧
      (∀ c q, Event.ndo c q ∉ tr2) ∧
      st2.offloadDevs = ((__bpf_prog_offload_destroy exStP 1).getD (exStP, [])).1.offloadDevs ∧
      st2.offloads = ((__bpf_prog_offload_destroy exStP 1).getD (exStP, [])).1.offloads ∧
      st2.devs = ((__bpf_prog_offload_destroy exStP 1).getD (exStP, [])).1.devs) := by
  have h1 : __bpf_prog_offload_destroy exStP 1
      = some (((__bpf_prog_offload_destroy exStP 1).getD (exStP, [])).1,
              ((__bpf_prog_offload_destroy exStP 1).getD (exStP, [])).2) := rfl
  exact ⟨by decide,
    (destroy_idempotent_past_unbind exStP 1 _ _ (by decide) h1).1⟩

/-- C9 (amended): in the teardown sequence of `destroy`, the driver
DESTROY command (dispatched at most once) comes first; the program's
externally-visible identifier is invalidated after that dispatch and
before the registry unlink; the descriptor is unlinked from the registry
before it is freed; and freeing happens exactly once, after the unlink
(hence after the dispatch attempt). -/
theorem destroy_teardown_order (st : State) (prog : ProgId) (st2 : State) (tr : List Event)
    (h : bpf_prog_offload_destroy st prog = some (st2, tr)) :
    tr.count (Event.kfree prog) = 1 ∧
    firstIdx (Event.listDel prog) tr < firstIdx (Event.kfree prog) tr ∧
    firstIdx (Event.freeId prog) tr < firstIdx (Event.listDel prog) tr ∧
    tr.count (Event.ndo NdoCmd.destroy prog) ≤ 1 ∧
    (Event.ndo NdoCmd.destroy prog ∈ tr →
      firstIdx (Event.ndo NdoCmd.destroy prog) tr < firstIdx (Event.freeId prog) tr) := by
  simp only [bpf_prog_offload_destroy] at h
  split at h
  · cases h
  · rename_i st1 trIn hinner
    obtain ⟨tr1, htr, hcases⟩ := destroy_inner_shape st prog st1 trIn hinner
    simp only [Option.some.injEq, Prod.mk.injEq] at h
    obtain ⟨-, h2⟩ := h
    subst h2
    subst htr
    rcases hcases with h1 | h1 | h1 | h1 <;> subst h1 <;>
      simp [firstIdx, List.count_append, List.count_cons]

theorem destroy_teardown_order_witness :
    ((bpf_prog_offload_destroy exStP 1).map
      (fun x => x.2.count (Event.kfree 1))) = some 1 ∧
    ((bpf_prog_offload_destroy exStP 1).map
      (fun x => decide (firstIdx (Event.listDel 1) x.2 < firstIdx (Event.kfree 1) x.2)))
      = some true := by
  have h : bpf_prog_offload_destroy exStP 1
      = some (((bpf_prog_offload_destroy exStP 1).getD (exStP, [])).1,
              ((bpf_prog_offload_destroy exStP 1).getD (exStP, [])).2) := rfl
  have hord := destroy_teardown_order exStP 1 _ _ h
  rw [h]
  simp only [Option.map_some']
  exact ⟨congrArg some hord.1, congrArg some (decide_eq_true hord.2.1)⟩

/-- C9 counterexample: in an actual destroy run the driver DESTROY
dispatch precedes the identifier invalidation, so the claim's
"identifier invalidated before the driver DESTROY dispatch" ordering
fails. -/
theorem destroy_id_after_dispatch_counterexample :
    ((bpf_prog_offload_destroy exStP 1).map
      (fun x => decide (Event.ndo NdoCmd.destroy 1 ∈ x.2))) = some true ∧
    ((bpf_prog_offload_destroy exStP 1).map
      (fun x => decide (firstIdx (Event.freeId 1) x.2
        < firstIdx (Event.ndo NdoCmd.destroy 1) x.2))) = some false := by
  constructor <;> rfl

/-! ## The device-removal sweep -/

/-- Full characterization of the registry sweep over a snapshot list `l`:
it succeeds, clears and unlinks exactly the descriptors in `l` bound to
the unregistering device, leaves every other descriptor and its
membership untouched, and dispatches DESTROY exactly once per swept
descriptor whose `dev_state` was set and never otherwise. -/
theorem sweepList_spec (devp : DevPtr) :
    ∀ (l : List ProgId) (st : State),
      l.Nodup →
      st.offloadDevs.Nodup →
      (∀ p, p ∈ l → (st.offloads p).isSome) →
      (∀ p off d, st.offloads p = some off → off.netdev = some d →
        (lookupDev st.devs d).isSome) →
      ∃ st1 tr, sweepList devp l st = some (st1, tr) ∧
        st1.devs = st.devs ∧
        st1.offloadDevs.Nodup ∧
        (∀ p off, st.offloads p = some off → off.netdev = some devp → p ∈ l →
          st1.offloads p = some { off with devState := false, netdev := none } ∧
          p ∉ st1.offloadDevs) ∧
        (∀ p, ¬ (p ∈ l ∧ boundTo st devp p) →
          st1.offloads p = st.offloads p ∧ (p ∈ st1.offloadDevs ↔ p ∈ st.offloadDevs)) ∧
        (∀ p off, st.offloads p = some off → off.netdev = some devp → p ∈ l →
          off.devState = true → tr.count (Event.ndo NdoCmd.destroy p) = 1) ∧
        (∀ p, ¬ (p ∈ l ∧ activeBoundTo st devp p) →
          tr.count (Event.ndo NdoCmd.destroy p) = 0) := by
  intro l
  induction l with
  | nil =>
    intro st _ hnd hsome hlive
    refine ⟨st, [], rfl, rfl, hnd, ?_, fun p _ => ⟨rfl, Iff.rfl⟩, ?_, fun p _ => rfl⟩
    · intro p off _ _ hmem
      exact absurd hmem (by simp)
    · intro p off _ _ hmem
      exact absurd hmem (by simp)
  | cons p rest ih =>
    intro st hl hnd hsome hlive
    obtain ⟨hp, hrest⟩ := List.nodup_cons.mp hl
    obtain ⟨off, hoff⟩ := Option.isSome_iff_exists.mp (hsome p (by simp))
    by_cases hb : off.netdev = some devp
    · obtain ⟨tr1, hrun, hcount, hmemtr, -, -⟩ :=
        destroy_inner_run st p off hoff (fun d hd => hlive p off d hoff hd)
    -- state after the first teardown
      have hDoffp : (destroyedState st p off).offloads p
          = some { off with devState := false, netdev := none } := by
        simp [destroyedState, upd]
      have hDoffl : ∀ q, q ≠ p →
          (destroyedState st p off).offloads q = st.offloads q := by
        intro q hq
        simp [destroyedState, upd, hq]
      have hDlist : (destroyedState st p off).offloadDevs = st.offloadDevs.erase p := rfl
      have hDdevs : (destroyedState st p off).devs = st.devs := rfl
      have hsome1 : ∀ q, q ∈ rest → ((destroyedState st p off).offloads q).isSome := by
        intro q hq
        by_cases hqp : q = p
        · subst hqp
          rw [hDoffp]
          rfl
        · rw [hDoffl q hqp]
          exact hsome q (List.mem_cons_of_mem _ hq)
      have hlive1 : ∀ q off1 d, (destroyedState st p off).offloads q = some off1 →
          off1.netdev = some d → (lookupDev (destroyedState st p off).devs d).isSome := by
        intro q off1 d hq hd
        rw [hDdevs]
        by_cases hqp : q = p
        · subst hqp
          rw [hDoffp] at hq
          cases Option.some.inj hq
          cases hd
        · rw [hDoffl q hqp] at hq
          exact hlive q off1 d hq hd
      have hnd1 : (destroyedState st p off).offloadDevs.Nodup := by
        rw [hDlist]
        exact List.Nodup.erase p hnd
      obtain ⟨st2, tr2, hs2, hdevs2, hnd2, hproc2, hun2, hone2, hzero2⟩ :=
        ih (destroyedState st p off) hrest hnd1 hsome1 hlive1
      have hstep : sweepList devp (p :: rest) st
          = some (st2, (tr1 ++ [Event.freeId p, Event.listDel p, Event.clearNetdev p]) ++ tr2) := by
        simp [sweepList, hoff, hb, hrun, hs2]
      refine ⟨st2, _, hstep, ?_, hnd2, ?_, ?_, ?_, ?_⟩
      · rw [hdevs2, hDdevs]
      · -- processed descriptors
        intro q offq hq hqnd hqmem
        rcases List.mem_cons.mp hqmem with hqp | hqrest
        · subst hqp
          have heqoff : offq = off := by
            rw [hoff] at hq
            exact (Option.some.inj hq).symm
          subst heqoff
          have hnotrest : ¬ (q ∈ rest ∧ boundTo (destroyedState st q offq) devp q) :=
            fun hc => hp hc.1
          obtain ⟨ho, hm⟩ := hun2 q hnotrest
          constructor
          · rw [ho, hDoffp]
          · intro hmem2
            have hq2 := hm.mp hmem2
            rw [hDlist] at hq2
            exact ((List.Nodup.mem_erase_iff hnd).mp hq2).1 rfl
        · have hqp : q ≠ p := fun hh => hp (hh ▸ hqrest)
          have hDq : (destroyedState st p off).offloads q = some offq := by
            rw [hDoffl q hqp]
            exact hq
          exact hproc2 q offq hDq hqnd hqrest
      · -- untouched descriptors
        intro q hnq
        have hqp : q ≠ p := by
          intro hh
          subst hh
          exact hnq ⟨by simp, off, hoff, hb⟩
        have hnq2 : ¬ (q ∈ rest ∧ boundTo (destroyedState st p off) devp q) := by
          rintro ⟨hqr, offq, ho, hn⟩
          rw [hDoffl q hqp] at ho
          exact hnq ⟨by simp [hqr], offq, ho, hn⟩
        obtain ⟨ho2, hm2⟩ := hun2 q hnq2
        constructor
        · rw [ho2, hDoffl q hqp]
        · rw [hm2, hDlist]
          exact List.mem_erase_of_ne hqp
      · -- one dispatch per swept active descriptor
        intro q offq hq hqnd hqmem hqds
        rcases List.mem_cons.mp hqmem with hqp | hqrest
        · subst hqp
          have heqoff : offq = off := by
            rw [hoff] at hq
            exact (Option.some.inj hq).symm
          subst heqoff
          rw [List.count_append, List.count_append]
          have h1 : tr1.count (Event.ndo NdoCmd.destroy q) = 1 := by
            have := hcount q
            rw [if_pos ⟨rfl, hqds, by rw [hqnd]; rfl⟩] at this
            exact this
          have h2 : tr2.count (Event.ndo NdoCmd.destroy q) = 0 :=
            hzero2 q (fun hc => hp hc.1)
          have hmid : ([Event.freeId q, Event.listDel q, Event.clearNetdev q]
              : List Event).count (Event.ndo NdoCmd.destroy q) = 0 := rfl
          rw [h1, h2, hmid]
        · have hqp : q ≠ p := fun hh => hp (hh ▸ hqrest)
          rw [List.count_append, List.count_append]
          have h1 : tr1.count (Event.ndo NdoCmd.destroy q) = 0 := by
            have := hcount q
            rw [if_neg (fun hc => hqp hc.1)] at this
            exact this
          have hmid : ([Event.freeId p, Event.listDel p, Event.clearNetdev p]
              : List Event).count (Event.ndo NdoCmd.destroy q) = 0 := rfl
          have hDq : (destroyedState st p off).offloads q = some offq := by
            rw [hDoffl q hqp]
            exact hq
          have h2 : tr2.count (Event.ndo NdoCmd.destroy q) = 1 :=
            hone2 q offq hDq hqnd hqrest hqds
          rw [h1, h2, hmid]
      · -- zero dispatches otherwise
        intro q hnq
        rw [List.count_append, List.count_append]
        have h1 : tr1.count (Event.ndo NdoCmd.destroy q) = 0 := by
          have := hcount q
          by_cases hqp : q = p
          · subst hqp
            have hds : ¬ off.devState = true :=
              fun hd => hnq ⟨by simp, off, hoff, hb, hd⟩
            rw [if_neg (fun hc => hds hc.2.1)] at this
            exact this
          · rw [if_neg (fun hc => hqp hc.1)] at this
            exact this
        have hmid : ([Event.freeId p, Event.listDel p, Event.clearNetdev p]
            : List Event).count (Event.ndo NdoCmd.destroy q) = 0 := rfl
        have h2 : tr2.count (Event.ndo NdoCmd.destroy q) = 0 := by
          apply hzero2
          rintro ⟨hqr, offq, ho, hn, hd⟩
          by_cases hqp : q = p
          · subst hqp
            rw [hDoffp] at ho
            cases Option.some.inj ho
            cases hn
          · rw [hDoffl q hqp] at ho
            exact hnq ⟨by simp [hqr], offq, ho, hn, hd⟩
        rw [h1, h2, hmid]
    · -- head not bound to the unregistering device
      obtain ⟨st2, tr2, hs2, hdevs2, hnd2, hproc2, hun2, hone2, hzero2⟩ :=
        ih st hrest hnd (fun q hq => hsome q (List.mem_cons_of_mem _ hq)) hlive
      have hstep : sweepList devp (p :: rest) st = some (st2, tr2) := by
        simp [sweepList, hoff, hb, hs2]
      refine ⟨st2, tr2, hstep, hdevs2, hnd2, ?_, ?_, ?_, ?_⟩
      · intro q offq hq hqnd hqmem
        rcases List.mem_cons.mp hqmem with hqp | hqrest
        · subst hqp
          have heqoff : offq = off := by
            rw [hoff] at hq
            exact (Option.some.inj hq).symm
          subst heqoff
          exact absurd hqnd hb
        · exact hproc2 q offq hq hqnd hqrest
      · intro q hnq
        apply hun2
        rintro ⟨hqr, hbd⟩
        exact hnq ⟨by simp [hqr], hbd⟩
      · intro q offq hq hqnd hqmem hqds
        rcases List.mem_cons.mp hqmem with hqp | hqrest
        · subst hqp
          have heqoff : offq = off := by
            rw [hoff] at hq
            exact (Option.some.inj hq).symm
          subst heqoff
          exact absurd hqnd hb
        · exact hone2 q offq hq hqnd hqrest hqds
      · intro q hnq
        apply hzero2
        rintro ⟨hqr, hbd⟩
        exact hnq ⟨by simp [hqr], hbd⟩

/-! ## C4: the device-removal notification -/

/-- C4 (amended): a `NETDEV_UNREGISTER` event for a device in the
`UNREGISTERING` state transitions every descriptor bound to that device —
and only those — to unbound (device reference cleared, unlinked from the
registry), with exactly one DESTROY dispatch for each such descriptor
whose `dev_state` was set (prepped) and none for a bound-but-unprepped
descriptor; any other event, or an `UNREGISTER` event with the device in
a different registration state (e.g. a namespace move), changes nothing
and dispatches nothing. -/
theorem notification_removal (st : State) (devp : DevPtr) (nd : NetDevice)
    (hInv : Inv st) (hdev : lookupDev st.devs devp = some nd) :
    (nd.regState = RegState.unregistering →
      ∃ st1 tr, bpf_offload_notification st NETDEV_UNREGISTER devp
          = some (NOTIFY_OK, st1, tr) ∧
        (∀ p off, st.offloads p = some off → off.netdev = some devp →
          st1.offloads p = some { off with devState := false, netdev := none } ∧
          p ∉ st1.offloadDevs ∧
          (off.devState = true → tr.count (Event.ndo NdoCmd.destroy p) = 1) ∧
          (off.devState = false → tr.count (Event.ndo NdoCmd.destroy p) = 0)) ∧
        (∀ p off, st.offloads p = some off → off.netdev ≠ some devp →
          st1.offloads p = some off ∧ (p ∈ st1.offloadDevs ↔ p ∈ st.offloadDevs) ∧
          tr.count (Event.ndo NdoCmd.destroy p) = 0)) ∧
    (∀ ev, ev ≠ NETDEV_UNREGISTER →
      bpf_offload_notification st ev devp = some (NOTIFY_OK, st, [])) ∧
    (nd.regState ≠ RegState.unregistering →
      bpf_offload_notification st NETDEV_UNREGISTER devp = some (NOTIFY_OK, st, [])) := by
  refine ⟨?_, ?_, ?_⟩
  · intro hreg
    obtain ⟨st1, trS, hs, hdevs1, hnd1, hproc, hun, hone, hzero⟩ :=
      sweepList_spec devp st.offloadDevs st hInv.nodup hInv.nodup
        (fun p hp => by obtain ⟨off, ho, -⟩ := hInv.mem_netdev p hp; rw [ho]; rfl)
        hInv.dev_live
    refine ⟨st1, [Event.devsLockWrite] ++ trS ++ [Event.devsUnlockWrite], ?_, ?_, ?_⟩
    · simp [bpf_offload_notification, hdev, hreg, hs]
    · intro p off hoffp hndp
      have hmem : p ∈ st.offloadDevs :=
        hInv.netdev_mem p off hoffp (by simp [hndp])
      obtain ⟨hoe, hnm⟩ := hproc p off hoffp hndp hmem
      refine ⟨hoe, hnm, ?_, ?_⟩
      · intro hds
        have h1 := hone p off hoffp hndp hmem hds
        simp [List.count_append, List.count_cons, h1]
      · intro hds
        have hz := hzero p (by
          rintro ⟨-, offq, hoq, -, hdq⟩
          rw [hoffp] at hoq
          cases Option.some.inj hoq
          rw [hds] at hdq
          cases hdq)
        simp [List.count_append, List.count_cons, hz]
    · intro p off hoffp hndp
      have hnb : ¬ (p ∈ st.offloadDevs ∧ boundTo st devp p) := by
        rintro ⟨-, offq, hoq, hnq⟩
        rw [hoffp] at hoq
        cases Option.some.inj hoq
        exact hndp hnq
      obtain ⟨hoe, hme⟩ := hun p hnb
      refine ⟨by rw [hoe, hoffp], hme, ?_⟩
      have hz := hzero p (by
        rintro ⟨-, offq, hoq, hnq, -⟩
        rw [hoffp] at hoq
        cases Option.some.inj hoq
        exact hndp hnq)
      simp [List.count_append, List.count_cons, hz]
  · intro ev hev
    simp [bpf_offload_notification, hdev, hev]
  · intro hreg
    simp [bpf_offload_notification, hdev, hreg]

theorem inv_exStUP : Inv exStUP := by
  constructor
  · simp [exStUP]
  · intro p hp
    simp [exStUP] at hp
    subst hp
    exact ⟨⟨1, some 5, some exHook, true⟩, rfl, by simp⟩
  · intro p off hoff hnd
    by_cases hp : p = 1
    · subst hp; simp [exStUP]
    · simp [exStUP, hp] at hoff
  · intro p off d hoff hnd
    by_cases hp : p = 1
    · subst hp
      simp only [exStUP, if_pos] at hoff
      cases Option.some.inj hoff
      cases Option.some.inj hnd
      rfl
    · simp [exStUP, hp] at hoff

theorem notification_removal_witness :
    ((bpf_offload_notification exStUP NETDEV_UNREGISTER 5).map
      (fun r => r.2.2.count (Event.ndo NdoCmd.destroy 1))) = some 1 := by
  obtain ⟨h1, -, -⟩ := notification_removal exStUP 5 exDevU inv_exStUP rfl
  obtain ⟨st1, tr, heq, hproc, -⟩ := h1 rfl
  obtain ⟨-, -, hone, -⟩ := hproc 1 ⟨1, some 5, some exHook, true⟩ rfl rfl
  rw [heq]
  simp only [Option.map_some']
  exact congrArg some (hone rfl)

/-- C4 counterexample: a descriptor bound to the unregistering device but
not yet prepped (`dev_state` false) is transitioned to unbound by the
removal event with zero DESTROY dispatches, not "exactly one". -/
theorem notification_unprepped_counterexample :
    exStU.offloads 1 = some ⟨1, some 5, none, false⟩ ∧
    ((bpf_offload_notification exStU NETDEV_UNREGISTER 5).map
      (fun r => r.2.2.count (Event.ndo NdoCmd.destroy 1))) = some 0 ∧
    ((bpf_offload_notification exStU NETDEV_UNREGISTER 5).map
      (fun r => decide (1 ∈ r.2.1.offloadDevs))) = some false := by
  exact ⟨rfl, rfl, rfl⟩

/-! ## C2: the registry-membership invariant -/

/-- The registry-relevant part of the inner teardown's successor state. -/
theorem destroy_inner_state (st : State) (prog : ProgId) (st1 : State) (trIn : List Event)
    (h : __bpf_prog_offload_destroy st prog = some (st1, trIn)) :
    ∃ off, st.offloads prog = some off ∧
      st1.offloads = upd st.offloads prog (some { off with devState := false, netdev := none }) ∧
      st1.offloadDevs = st.offloadDevs.erase prog ∧
      st1.devs = st.devs := by
  simp only [__bpf_prog_offload_destroy] at h
  split at h
  · cases h
  · rename_i off hoff
    split at h
    · cases h
    · rename_i tr0 heq
      simp only [Option.some.injEq, Prod.mk.injEq] at h
      obtain ⟨hst1, -⟩ := h
      exact ⟨off, hoff, by rw [← hst1], by rw [← hst1], by rw [← hst1]⟩

/-- C2: the invariant "a descriptor is a member of the live-descriptor
list iff its device reference is non-empty" (together with the auxiliary
well-formedness facts bundled in `Inv`) holds after every operation of
the subsystem: init, verifier_prep, translate, compile, destroy and the
device-removal sweep. -/
theorem registry_invariant_preserved (st : State) (hInv : Inv st) :
    registryIff st ∧
    (∀ capAdmin allocOk curNs prog attr, st.offloads prog = none →
      Inv (bpf_prog_offload_init st capAdmin allocOk curNs prog attr).2.1) ∧
    (∀ prog, Inv (bpf_prog_offload_verifier_prep st prog).2.1) ∧
    (∀ prog, Inv (bpf_prog_offload_translate st prog).2.1) ∧
    (∀ prog, Inv (bpf_prog_offload_compile st prog).2.1) ∧
    (∀ prog st2 tr, bpf_prog_offload_destroy st prog = some (st2, tr) → Inv st2) ∧
    (∀ ev devp r, bpf_offload_notification st ev devp = some r → Inv r.2.1) := by
  refine ⟨hInv.registry_iff, ?_, ?_, ?_, ?_, ?_, ?_⟩
  · -- init
    intro capAdmin allocOk curNs prog attr hz
    have hnotmem : prog ∉ st.offloadDevs := by
      intro hmem
      obtain ⟨off, ho, -⟩ := hInv.mem_netdev prog hmem
      rw [hz] at ho
      cases ho
    simp only [bpf_prog_offload_init]
    split
    · exact hInv
    · split
      · exact hInv
      · split
        · exact hInv
        · split
          · exact hInv
          · rename_i p ndv hfind
            split
            · exact hInv
            · split
              · exact hInv
              · -- success branch
                have hlook : (lookupDev st.devs p).isSome := by
                  have hmem := List.mem_of_find?_eq_some hfind
                  rcases hfs : st.devs.find? (fun e => e.1 = p) with _ | e
                  · have := List.find?_eq_none.mp hfs (p, ndv) hmem
                    simp at this
                  · simp [lookupDev, hfs]
                constructor
                · rw [List.nodup_append]
                  refine ⟨hInv.nodup, by simp, ?_⟩
                  intro a ha hb
                  rw [List.mem_singleton] at hb
                  subst hb
                  exact hnotmem ha
                · intro q hq
                  rw [List.mem_append, List.mem_singleton] at hq
                  rcases hq with hq | hq
                  · have hqp : q ≠ prog := fun hh => hnotmem (hh ▸ hq)
                    obtain ⟨offq, ho, hn⟩ := hInv.mem_netdev q hq
                    exact ⟨offq, by simpa [upd, hqp] using ho, hn⟩
                  · subst hq
                    exact ⟨⟨q, some p, none, false⟩, by simp [upd], by simp⟩
                · intro q offq ho hn
                  rw [List.mem_append, List.mem_singleton]
                  by_cases hqp : q = prog
                  · right; exact hqp
                  · left
                    simp only [upd, if_neg hqp] at ho
                    exact hInv.netdev_mem q offq ho hn
                · intro q offq d ho hd
                  by_cases hqp : q = prog
                  · subst hqp
                    simp only [upd, if_pos] at ho
                    cases Option.some.inj ho
                    cases Option.some.inj hd
                    exact hlook
                  · simp only [upd, if_neg hqp] at ho
                    exact hInv.dev_live q offq d ho hd
  · -- verifier_prep
    intro prog
    rcases hsh : __bpf_offload_ndo st prog NdoCmd.verifierPrep with ⟨r1, rtr⟩
    simp only [bpf_prog_offload_verifier_prep, hsh]
    rcases r1 with _ | ⟨err, opsOpt⟩
    · exact hInv
    · by_cases herr : err ≠ 0
      · simp only [if_pos herr]
        exact hInv
      · simp only [if_neg herr]
        cases hoffp : st.offloads prog with
        | none => exact hInv
        | some off =>
          show Inv { st with offloads := upd st.offloads prog (some { off with devOps := opsOpt, devState := true }) }
          constructor
          · exact hInv.nodup
          · intro q hq
            by_cases hqp : q = prog
            · subst hqp
              obtain ⟨off2, ho2, hn2⟩ := hInv.mem_netdev q hq
              rw [hoffp] at ho2
              cases Option.some.inj ho2
              exact ⟨{ off with devOps := opsOpt, devState := true }, by simp [upd], hn2⟩
            · obtain ⟨off2, ho2, hn2⟩ := hInv.mem_netdev q hq
              exact ⟨off2, by simpa [upd, hqp] using ho2, hn2⟩
          · intro q offq ho hn
            by_cases hqp : q = prog
            · subst hqp
              simp only [upd, if_pos] at ho
              cases Option.some.inj ho
              exact hInv.netdev_mem q off hoffp hn
            · simp only [upd, if_neg hqp] at ho
              exact hInv.netdev_mem q offq ho hn
          · intro q offq d ho hd
            by_cases hqp : q = prog
            · subst hqp
              simp only [upd, if_pos] at ho
              cases Option.some.inj ho
              exact hInv.dev_live q off d hoffp hd
            · simp only [upd, if_neg hqp] at ho
              exact hInv.dev_live q offq d ho hd
  · -- translate
    intro prog
    rw [translate_state]
    exact hInv
  · -- compile
    intro prog
    simp only [bpf_prog_offload_compile]
    rw [translate_state]
    exact ⟨hInv.nodup, hInv.mem_netdev, hInv.netdev_mem, hInv.dev_live⟩
  · -- destroy
    intro prog st2 tr h
    simp only [bpf_prog_offload_destroy] at h
    split at h
    · cases h
    · rename_i st1 trIn hd
      obtain ⟨off, hoff, hofsm, hlsm, hdvm⟩ := destroy_inner_state st prog st1 trIn hd
      simp only [Option.some.injEq, Prod.mk.injEq] at h
      obtain ⟨hst2, -⟩ := h
      have hofs2 : st2.offloads = upd st1.offloads prog none := by rw [← hst2]
      have hls2 : st2.offloadDevs = st.offloadDevs.erase prog := by
        rw [← hst2]; exact hlsm
      have hdv2 : st2.devs = st.devs := by rw [← hst2]; exact hdvm
      have hofq : ∀ q, q ≠ prog → st2.offloads q = st.offloads q := by
        intro q hq
        rw [hofs2, hofsm]
        simp [upd, hq]
      have hofp : st2.offloads prog = none := by
        rw [hofs2]
        simp [upd]
      constructor
      · rw [hls2]
        exact List.Nodup.erase prog hInv.nodup
      · intro q hq
        rw [hls2] at hq
        obtain ⟨hqp, hqm⟩ := (List.Nodup.mem_erase_iff hInv.nodup).mp hq
        obtain ⟨offq, ho, hn⟩ := hInv.mem_netdev q hqm
        exact ⟨offq, by rw [hofq q hqp]; exact ho, hn⟩
      · intro q offq ho hn
        have hqp : q ≠ prog := by
          intro hh
          subst hh
          rw [hofp] at ho
          cases ho
        rw [hofq q hqp] at ho
        rw [hls2]
        exact (List.mem_erase_of_ne hqp).mpr (hInv.netdev_mem q offq ho hn)
      · intro q offq d ho hd
        have hqp : q ≠ prog := by
          intro hh
          subst hh
          rw [hofp] at ho
          cases ho
        rw [hofq q hqp] at ho
        rw [hdv2]
        exact hInv.dev_live q offq d ho hd
  · -- device-removal notification
    intro ev devp r h
    simp only [bpf_offload_notification] at h
    split at h
    · cases h
    · rename_i nd hdev
      split at h
      · split at h
        · simp only [Option.some.injEq] at h
          rw [← h]
          exact hInv
        · split at h
          · cases h
          · rename_i st1 trS hs
            simp only [Option.some.injEq] at h
            obtain ⟨st1b, trSb, hsb, hdevsb, hndb, hprocb, hunb, -, -⟩ :=
              sweepList_spec devp st.offloadDevs st hInv.nodup hInv.nodup
                (fun p hp => by obtain ⟨off, ho, -⟩ := hInv.mem_netdev p hp; rw [ho]; rfl)
                hInv.dev_live
            rw [hs] at hsb
            obtain ⟨hst, htr⟩ := Prod.mk.injEq _ _ _ _ ▸ Option.some.inj hsb
            subst hst
            rw [← h]
            constructor
            · exact hndb
            · intro q hq
              have hnb : ¬ (q ∈ st.offloadDevs ∧ boundTo st devp q) := by
                rintro ⟨hql, offq, hoq, hnq⟩
                exact (hprocb q offq hoq hnq hql).2 hq
              obtain ⟨hoe, hme⟩ := hunb q hnb
              obtain ⟨offq, ho, hn⟩ := hInv.mem_netdev q (hme.mp hq)
              exact ⟨offq, by rw [hoe]; exact ho, hn⟩
            · intro q offq ho hn
              by_cases hcb : q ∈ st.offloadDevs ∧ boundTo st devp q
              · obtain ⟨hql, offb, hob, hnb2⟩ := hcb
                obtain ⟨hoe, -⟩ := hprocb q offb hob hnb2 hql
                rw [hoe] at ho
                cases Option.some.inj ho
                simp at hn
              · obtain ⟨hoe, hme⟩ := hunb q hcb
                rw [hoe] at ho
                exact hme.mpr (hInv.netdev_mem q offq ho hn)
            · intro q offq d ho hd
              rw [hdevsb]
              by_cases hcb : q ∈ st.offloadDevs ∧ boundTo st devp q
              · obtain ⟨hql, offb, hob, hnb2⟩ := hcb
                obtain ⟨hoe, -⟩ := hprocb q offb hob hnb2 hql
                rw [hoe] at ho
                cases Option.some.inj ho
                cases hd
              · obtain ⟨hoe, -⟩ := hunb q hcb
                rw [hoe] at ho
                exact hInv.dev_live q offq d ho hd
      · simp only [Option.some.injEq] at h
        rw [← h]
        exact hInv

theorem inv_exSt0 : Inv exSt0 := by
  constructor
  · simp [exSt0]
  · intro p hp
    simp [exSt0] at hp
  · intro p off hoff hnd
    simp only [exSt0] at hoff
    cases hoff
  · intro p off d hoff hnd
    simp only [exSt0] at hoff
    cases hoff

theorem registry_invariant_preserved_witness :
    Inv (bpf_prog_offload_init exSt0 true true 0 1 ⟨0, 9⟩).2.1 :=
  (registry_invariant_preserved exSt0 inv_exSt0).2.1 true true 0 1 ⟨0, 9⟩ rfl

/-! ## C10: lock discipline -/

theorem lockOrderOk_of_no_rtnl :
    ∀ (tr : List Event) (d : Nat), Event.rtnlLock ∉ tr → lockOrderOk tr d = true := by
  intro tr
  induction tr with
  | nil => intro d _; rfl
  | cons x xs ih =>
    intro d h
    rw [List.mem_cons] at h
    push_neg at h
    obtain ⟨hx, hxs⟩ := h
    cases x
    case rtnlLock => exact absurd rfl hx
    all_goals simp only [lockOrderOk]
    all_goals exact ih _ hxs

theorem destroy_inner_no_rtnl (st : State) (prog : ProgId) (st1 : State) (trIn : List Event)
    (h : __bpf_prog_offload_destroy st prog = some (st1, trIn)) :
    Event.rtnlLock ∉ trIn := by
  obtain ⟨tr1, htr, hc⟩ := destroy_inner_shape st prog st1 trIn h
  subst htr
  rcases hc with h1 | h1 | h1 | h1 <;> subst h1 <;> simp

theorem sweep_no_rtnl (devp : DevPtr) :
    ∀ (l : List ProgId) (st st1 : State) (tr : List Event),
      sweepList devp l st = some (st1, tr) → Event.rtnlLock ∉ tr := by
  intro l
  induction l with
  | nil =>
    intro st st1 tr h
    simp only [sweepList, Option.some.injEq, Prod.mk.injEq] at h
    rw [← h.2]
    simp
  | cons p rest ih =>
    intro st st1 tr h
    simp only [sweepList] at h
    split at h
    · cases h
    · rename_i off hoff
      split at h
      · split at h
        · cases h
        · rename_i stmid trmid hd
          split at h
          · cases h
          · rename_i st2 tr2 hs
            simp only [Option.some.injEq, Prod.mk.injEq] at h
            rw [← h.2, List.mem_append]
            rintro (hc | hc)
            · exact destroy_inner_no_rtnl st p stmid trmid hd hc
            · exact ih stmid st2 tr2 hs hc
      · exact ih st st1 tr h

/-- C10 (amended): every operation that acquires both locks takes the
topology (rtnl) lock before the registry lock and never acquires the
topology lock while the registry lock is held; `init`'s fully-registered
check, however, is performed under the registry write lock alone — the
topology lock is not held there. -/
theorem lock_discipline :
    (∀ st capAdmin allocOk curNs prog attr,
      lockOrderOk (bpf_prog_offload_init st capAdmin allocOk curNs prog attr).2.2 0 = true ∧
      rtnlHeldAtFirstCheck
        (bpf_prog_offload_init st capAdmin allocOk curNs prog attr).2.2 0 ≠ some true ∧
      devsWriteHeldAtFirstCheck
        (bpf_prog_offload_init st capAdmin allocOk curNs prog attr).2.2 0 ≠ some false) ∧
    (∀ st prog, lockOrderOk (bpf_prog_offload_verifier_prep st prog).2.2 0 = true) ∧
    (∀ st prog i p, lockOrderOk (bpf_prog_offload_verify_insn st prog i p).2 0 = true) ∧
    (∀ st prog, lockOrderOk (bpf_prog_offload_translate st prog).2.2 0 = true) ∧
    (∀ st prog, lockOrderOk (bpf_prog_offload_compile st prog).2.2 0 = true) ∧
    (∀ st prog st2 tr, bpf_prog_offload_destroy st prog = some (st2, tr) →
      lockOrderOk tr 0 = true) ∧
    (∀ st prog info r, bpf_prog_offload_info_fill_ns st prog info = some r →
      lockOrderOk r.2.2 0 = true) ∧
    (∀ st ev devp r, bpf_offload_notification st ev devp = some r →
      lockOrderOk r.2.2 0 = true) := by
  have htransl : ∀ st prog, lockOrderOk (bpf_prog_offload_translate st prog).2.2 0 = true := by
    intro st prog
    rcases hsh : __bpf_offload_ndo st prog NdoCmd.translate with ⟨r1, rtr⟩
    have hr2 := ndo_trace_shape st prog NdoCmd.translate
    rw [hsh] at hr2
    simp only [bpf_prog_offload_translate, hsh]
    rcases r1 with _ | ⟨code, ops⟩ <;>
      rcases hr2 with h | h <;> subst h <;> simp [lockOrderOk]
  refine ⟨?_, ?_, ?_, htransl, ?_, ?_, ?_, ?_⟩
  · intro st capAdmin allocOk curNs prog attr
    simp only [bpf_prog_offload_init]
    split
    · exact ⟨rfl, by simp [rtnlHeldAtFirstCheck], by simp [devsWriteHeldAtFirstCheck]⟩
    · split
      · exact ⟨rfl, by simp [rtnlHeldAtFirstCheck], by simp [devsWriteHeldAtFirstCheck]⟩
      · split
        · exact ⟨rfl, by simp [rtnlHeldAtFirstCheck], by simp [devsWriteHeldAtFirstCheck]⟩
        · split
          · exact ⟨rfl, by simp [rtnlHeldAtFirstCheck], by simp [devsWriteHeldAtFirstCheck]⟩
          · split
            · exact ⟨rfl, by simp [rtnlHeldAtFirstCheck], by simp [devsWriteHeldAtFirstCheck]⟩
            · split <;>
                exact ⟨by simp [lockOrderOk],
                  by simp [rtnlHeldAtFirstCheck],
                  by simp [devsWriteHeldAtFirstCheck]⟩
  · intro st prog
    rcases hsh : __bpf_offload_ndo st prog NdoCmd.verifierPrep with ⟨r1, rtr⟩
    have hr2 := ndo_trace_shape st prog NdoCmd.verifierPrep
    rw [hsh] at hr2
    simp only [bpf_prog_offload_verifier_prep, hsh]
    rcases r1 with _ | ⟨code, ops⟩ <;> rcases hr2 with h | h <;> subst h
    all_goals repeat' split
    all_goals simp [lockOrderOk]
  · intro st prog i p
    simp only [bpf_prog_offload_verify_insn]
    repeat' split
    all_goals rfl
  · intro st prog
    simp only [bpf_prog_offload_compile]
    exact htransl _ _
  · intro st prog st2 tr h
    simp only [bpf_prog_offload_destroy] at h
    split at h
    · cases h
    · rename_i stmid trIn hd
      obtain ⟨tr1, htr, hc⟩ := destroy_inner_shape st prog stmid trIn hd
      simp only [Option.some.injEq, Prod.mk.injEq] at h
      rw [← h.2, htr]
      rcases hc with h1 | h1 | h1 | h1 <;> subst h1 <;> rfl
  · intro st prog info r h
    simp only [bpf_prog_offload_info_fill_ns] at h
    split at h
    · simp only [Option.some.injEq] at h
      rw [← h]
      rfl
    · split at h
      · cases h
      · split at h
        · cases h
        · simp only [Option.some.injEq] at h
          rw [← h]
          rfl
  · intro st ev devp r h
    simp only [bpf_offload_notification] at h
    split at h
    · cases h
    · split at h
      · split at h
        · simp only [Option.some.injEq] at h
          rw [← h]
          rfl
        · split at h
          · cases h
          · rename_i st1 trS hs
            simp only [Option.some.injEq] at h
            rw [← h]
            refine lockOrderOk_of_no_rtnl _ _ ?_
            have hns := sweep_no_rtnl devp st.offloadDevs st st1 trS hs
            simp [List.mem_append, hns]
      · simp only [Option.some.injEq] at h
        rw [← h]
        rfl

theorem lock_discipline_witness :
    lockOrderOk
      ((bpf_prog_offload_destroy exStP 1).getD (exStP, [])).2 0 = true := by
  have h : bpf_prog_offload_destroy exStP 1
      = some (((bpf_prog_offload_destroy exStP 1).getD (exStP, [])).1,
              ((bpf_prog_offload_destroy exStP 1).getD (exStP, [])).2) := rfl
  exact lock_discipline.2.2.2.2.2.1 exStP 1 _ _ h

/-- C10 counterexample: a successful `init` run reaches the
fully-registered check with the registry write lock held but the
topology (rtnl) lock not held, so "under the topology lock plus registry
write lock" fails. -/
theorem init_check_without_rtnl_counterexample :
    rtnlHeldAtFirstCheck (bpf_prog_offload_init exSt0 true true 0 1 ⟨0, 9⟩).2.2 0
      = some false ∧
    devsWriteHeldAtFirstCheck (bpf_prog_offload_init exSt0 true true 0 1 ⟨0, 9⟩).2.2 0
      = some true ∧
    (bpf_prog_offload_init exSt0 true true 0 1 ⟨0, 9⟩).1 = 0 := by
  exact ⟨rfl, rfl, rfl⟩

end BpfOffload
